import Mathlib

/-!
Shallow embedding of the nerfacc packed data views
(`data_spec_packed.cuh`, in its two historical variants) and of the
ray/AABB/occupancy-grid primitives its spec describes.

Floating-point values are modelled by `NerfAcc.F`: exact rationals plus
the IEEE-754 special values needed by the code (signed infinities, a
negative zero, NaN).  Torch tensors are modelled by `NerfAcc.Tensor`, a
shape together with a flat data list; an undefined tensor is `Option`'s
`none`.  The `int32_t` narrowing conversions of the CUDA structs are
modelled by `wrap32` (two's-complement wrap-around at 32 bits).
-/

namespace NerfAcc

/-- Model of a 32-bit IEEE-754 float value: NaN, signed infinities,
negative zero, and finite values as exact rationals (`fin 0` is +0). -/
inductive F where
  | nan : F
  | posInf : F
  | negInf : F
  | negZero : F
  | fin : ℚ → F
deriving DecidableEq

/-- Numeric value of a finite float (`negZero` counts as 0); junk 0 on
NaN and the infinities, which callers never hit. -/
def F.toQ : F → ℚ
  | F.fin q => q
  | _ => 0

/-- Models the IEEE-754 float division `1.0f / x`: division by ±0 yields
the correspondingly signed infinity. -/
def F.rcp : F → F
  | F.nan => F.nan
  | F.posInf => F.fin 0
  | F.negInf => F.negZero
  | F.negZero => F.negInf
  | F.fin q => if q = 0 then F.posInf else F.fin q⁻¹

/-- Whether the value is an infinity. -/
def F.isInf : F → Bool
  | F.posInf => true
  | F.negInf => true
  | _ => false

/-- Sign of the value: 1 positive, -1 negative, 0 for zeros and NaN. -/
def F.sgn : F → ℤ
  | F.nan => 0
  | F.posInf => 1
  | F.negInf => -1
  | F.negZero => 0
  | F.fin q => if 0 < q then 1 else if q < 0 then -1 else 0

/-- IEEE-754-style subtraction (finite arithmetic kept exact; the sign
of a zero result is collapsed to +0). -/
def F.sub : F → F → F
  | F.nan, _ => F.nan
  | _, F.nan => F.nan
  | F.posInf, F.posInf => F.nan
  | F.posInf, _ => F.posInf
  | F.negInf, F.negInf => F.nan
  | F.negInf, _ => F.negInf
  | _, F.posInf => F.negInf
  | _, F.negInf => F.posInf
  | x, y => F.fin (x.toQ - y.toQ)

/-- IEEE-754-style multiplication: 0 · ∞ = NaN, signed infinities,
finite arithmetic kept exact (zero-sign collapsed to +0). -/
def F.mul (a b : F) : F :=
  if a = F.nan ∨ b = F.nan then F.nan
  else if a.isInf || b.isInf then
    if a.sgn * b.sgn = 0 then F.nan
    else if a.sgn * b.sgn = 1 then F.posInf else F.negInf
  else F.fin (a.toQ * b.toQ)

/-- IEEE-754 ordered comparison `a <= b`; false whenever either side is
NaN; -0 and +0 compare equal. -/
def F.le : F → F → Bool
  | F.nan, _ => false
  | _, F.nan => false
  | F.negInf, _ => true
  | _, F.negInf => false
  | _, F.posInf => true
  | F.posInf, _ => false
  | x, y => decide (x.toQ ≤ y.toQ)

/-- Minimum of two float values by the ordered comparison. -/
def F.fmin (a b : F) : F := if F.le a b then a else b

/-- Maximum of two float values by the ordered comparison. -/
def F.fmax (a b : F) : F := if F.le a b then b else a

/-- A CUDA `float3`. -/
structure F3 where
  x : F
  y : F
  z : F
deriving DecidableEq

/-- A CUDA `int3` (coordinates as mathematical integers). -/
structure I3 where
  x : ℤ
  y : ℤ
  z : ℤ
deriving DecidableEq

/-- Two's-complement wrap-around of a non-negative size into `int32_t`,
modelling the narrowing conversions `int32_t n_rays = ...size(0)` etc. -/
def wrap32 (n : ℕ) : ℤ := ((n : ℤ) + 2 ^ 31) % 2 ^ 32 - 2 ^ 31

/-- Model of a defined `torch::Tensor`: its shape (list of dimension
sizes, as returned by `size(i)`) and its flat element data. -/
structure Tensor (α : Type) where
  shape : List ℕ
  data : List α
deriving DecidableEq

/-- `tensor.dim()`: the number of dimensions. -/
def Tensor.dim {α : Type} (t : Tensor α) : ℕ := t.shape.length

/-- `tensor.numel()`: the total number of elements, the product of the
dimension sizes. -/
def Tensor.numel {α : Type} (t : Tensor α) : ℕ := t.shape.prod

/-- `tensor.size(i)` for a non-negative index `i` in range. -/
def Tensor.size {α : Type} (t : Tensor α) (i : ℕ) : ℕ := t.shape.getD i 0

/-- `tensor.size(0)`. -/
def Tensor.size0 {α : Type} (t : Tensor α) : ℕ := t.shape.headD 0

/-- `tensor.size(-1)`: the last dimension size. -/
def Tensor.sizeLast {α : Type} (t : Tensor α) : ℕ := t.shape.getLastD 0

/-- Host-side `RaySegmentsSpec` (from `data_spec.hpp`): a record of
torch tensors, each possibly undefined (`none`). -/
structure RaySegmentsSpec where
  edges : Option (Tensor F)
  is_left : Option (Tensor Bool)
  is_right : Option (Tensor Bool)
  chunk_starts : Option (Tensor ℤ)
  chunk_cnts : Option (Tensor ℤ)
  ray_ids : Option (Tensor ℤ)
deriving DecidableEq

/-- Device-side `PackedRaySegmentsSpec`, later (superset) variant from
`data_spec_packed.cuh`.  A field of `Option` type models a possibly-null
device pointer (`none` = `nullptr`, `some l` = a pointer to data `l`). -/
structure PackedRaySegmentsSpec where
  edges : Option (List F)
  is_batched : Bool
  chunk_starts : Option (List ℤ)
  chunk_cnts : Option (List ℤ)
  ray_ids : Option (List ℤ)
  is_left : Option (List Bool)
  is_right : Option (List Bool)
  n_edges : ℤ
  n_rays : ℤ
  n_edges_per_ray : ℤ
deriving DecidableEq

/-- The constructor `PackedRaySegmentsSpec(RaySegmentsSpec&)` of the
later variant: every nullable tensor is guarded by `defined()`,
`is_batched` is `edges.dim() > 1`, `n_edges` is `edges.numel()`,
`n_rays` is `chunk_cnts.size(0)` (narrowed to `int32_t`), and
`n_edges_per_ray` is `edges.size(-1)` (narrowed to `int32_t`). -/
def PackedRaySegmentsSpec.ofSpec (s : RaySegmentsSpec) : PackedRaySegmentsSpec where
  edges := s.edges.map Tensor.data
  is_batched := match s.edges with
    | some e => decide (1 < e.dim)
    | none => false
  chunk_starts := s.chunk_starts.map Tensor.data
  chunk_cnts := s.chunk_cnts.map Tensor.data
  ray_ids := s.ray_ids.map Tensor.data
  is_left := s.is_left.map Tensor.data
  is_right := s.is_right.map Tensor.data
  n_edges := match s.edges with
    | some e => (e.numel : ℤ)
    | none => 0
  n_rays := match s.chunk_cnts with
    | some c => wrap32 c.size0
    | none => 0
  n_edges_per_ray := match s.edges with
    | some e => wrap32 e.sizeLast
    | none => 0

/-- Device-side `PackedRaySegmentsSpec`, earlier variant (the second
observed copy of the header): no `is_batched`/`n_edges_per_ray`, and
`chunk_cnts` is dereferenced unconditionally, so it must be defined. -/
structure PackedRaySegmentsSpecOld where
  edges : Option (List F)
  is_left : Option (List Bool)
  is_right : Option (List Bool)
  chunk_starts : Option (List ℤ)
  chunk_cnts : List ℤ
  ray_ids : Option (List ℤ)
  n_edges : ℤ
  n_rays : ℤ
deriving DecidableEq

/-- The earlier variant's constructor.  `spec.chunk_cnts.data_ptr()` and
`spec.chunk_cnts.size(0)` are called without a `defined()` guard; on an
undefined tensor torch throws, so construction fails (`none`) exactly
when `chunk_cnts` is absent. -/
def PackedRaySegmentsSpecOld.ofSpec (s : RaySegmentsSpec) : Option PackedRaySegmentsSpecOld :=
  match s.chunk_cnts with
  | none => none
  | some c => some
      { edges := s.edges.map Tensor.data
        is_left := s.is_left.map Tensor.data
        is_right := s.is_right.map Tensor.data
        chunk_starts := s.chunk_starts.map Tensor.data
        chunk_cnts := c.data
        ray_ids := s.ray_ids.map Tensor.data
        n_edges := match s.edges with
          | some e => (e.numel : ℤ)
          | none => 0
        n_rays := (c.size0 : ℤ) }

/-- Host-side `MultiScaleGridSpec` (later variant field names): all
three tensors are dereferenced unconditionally, so they are required. -/
structure MultiScaleGridSpec where
  data : Tensor F
  occupied : Tensor Bool
  base_aabb : Tensor F
deriving DecidableEq

/-- Device-side `PackedMultiScaleGridSpec`: raw data pointers plus
`levels = data.size(0)` and `resolution = (data.size(1), data.size(2),
data.size(3))`, each narrowed to `int32_t`. -/
structure PackedMultiScaleGridSpec where
  data : List F
  occupied : List Bool
  base_aabb : List F
  levels : ℤ
  resolution : I3
deriving DecidableEq

/-- The constructor `PackedMultiScaleGridSpec(MultiScaleGridSpec&)`. -/
def PackedMultiScaleGridSpec.ofSpec (s : MultiScaleGridSpec) : PackedMultiScaleGridSpec where
  data := s.data.data
  occupied := s.occupied.data
  base_aabb := s.base_aabb.data
  levels := wrap32 (s.data.size 0)
  resolution := ⟨wrap32 (s.data.size 1), wrap32 (s.data.size 2), wrap32 (s.data.size 3)⟩

/-- Host-side `RaysSpec`: two required tensors. -/
structure RaysSpec where
  origins : Tensor F
  dirs : Tensor F
deriving DecidableEq

/-- Device-side `PackedRaysSpec`: raw pointers and
`N = origins.size(0)` (narrowed to `int32_t` in the later variant). -/
structure PackedRaysSpec where
  origins : List F
  dirs : List F
  N : ℤ
deriving DecidableEq

/-- The constructor `PackedRaysSpec(RaysSpec&)`. -/
def PackedRaysSpec.ofSpec (s : RaysSpec) : PackedRaysSpec where
  origins := s.origins.data
  dirs := s.dirs.data
  N := wrap32 s.origins.size0

/-- Device-side `SingleRaySpec`: one ray extracted from the packed rays
buffer. -/
structure SingleRaySpec where
  origin : F3
  dir : F3
  inv_dir : F3
  tmin : F
  tmax : F
deriving DecidableEq

/-- The constructor `SingleRaySpec(PackedRaysSpec&, id, tmin, tmax)`:
reads `origins[id*3 .. id*3+2]` and `dirs[id*3 .. id*3+2]`, computes
`inv_dir` as `1.0f / dirs[...]` per component, and stores `tmin`/`tmax`
unchanged.  The unchecked device reads are modelled by `List.getD` with
a NaN default (the caller guarantees the index is in range). -/
def SingleRaySpec.make (rays : PackedRaysSpec) (id : ℕ) (tmin tmax : F) : SingleRaySpec where
  origin := ⟨rays.origins.getD (id * 3) F.nan,
             rays.origins.getD (id * 3 + 1) F.nan,
             rays.origins.getD (id * 3 + 2) F.nan⟩
  dir := ⟨rays.dirs.getD (id * 3) F.nan,
          rays.dirs.getD (id * 3 + 1) F.nan,
          rays.dirs.getD (id * 3 + 2) F.nan⟩
  inv_dir := ⟨F.rcp (rays.dirs.getD (id * 3) F.nan),
              F.rcp (rays.dirs.getD (id * 3 + 1) F.nan),
              F.rcp (rays.dirs.getD (id * 3 + 2) F.nan)⟩
  tmin := tmin
  tmax := tmax

/-- Device-side `AABBSpec`: min and max corners. -/
structure AABBSpec where
  min : F3
  max : F3
deriving DecidableEq

/-- The constructor `AABBSpec(float* aabb)`: the first three elements
are the min corner, the last three the max corner. -/
def AABBSpec.ofPtr (aabb : List F) : AABBSpec where
  min := ⟨aabb.getD 0 F.nan, aabb.getD 1 F.nan, aabb.getD 2 F.nan⟩
  max := ⟨aabb.getD 3 F.nan, aabb.getD 4 F.nan, aabb.getD 5 F.nan⟩

/-- Modelled from the spec: the device-side ray/AABB slab intersection,
whose implementation is not among the provided source files (only the
`AABBSpec` data it consumes is).  Per the spec: for each axis `k`,
compute candidate entry/exit as `(min[k]-origin[k])*inv_dir[k]` and
`(max[k]-origin[k])*inv_dir[k]`, order them so entry ≤ exit per axis,
then intersect across axes and with the input `[tmin, tmax]`.  Returns
the combined interval `(t_enter, t_exit)`. -/
def ray_aabb_intersect (ray : SingleRaySpec) (aabb : AABBSpec) : F × F :=
  let tx1 := F.mul (F.sub aabb.min.x ray.origin.x) ray.inv_dir.x
  let tx2 := F.mul (F.sub aabb.max.x ray.origin.x) ray.inv_dir.x
  let ty1 := F.mul (F.sub aabb.min.y ray.origin.y) ray.inv_dir.y
  let ty2 := F.mul (F.sub aabb.max.y ray.origin.y) ray.inv_dir.y
  let tz1 := F.mul (F.sub aabb.min.z ray.origin.z) ray.inv_dir.z
  let tz2 := F.mul (F.sub aabb.max.z ray.origin.z) ray.inv_dir.z
  let tenter := F.fmax (F.fmax (F.fmin tx1 tx2) (F.fmin ty1 ty2))
                       (F.fmax (F.fmin tz1 tz2) ray.tmin)
  let texit := F.fmin (F.fmin (F.fmax tx1 tx2) (F.fmax ty1 ty2))
                      (F.fmin (F.fmax tz1 tz2) ray.tmax)
  (tenter, texit)

/-- Modelled from the spec: the resulting interval is empty when
`t_enter > t_exit` after combining all axes. -/
def intersectIsEmpty (ray : SingleRaySpec) (aabb : AABBSpec) : Bool :=
  !(F.le (ray_aabb_intersect ray aabb).1 (ray_aabb_intersect ray aabb).2)

/-- A rational 3-vector, for the exact-arithmetic occupancy-grid
model. -/
structure Q3 where
  x : ℚ
  y : ℚ
  z : ℚ
deriving DecidableEq

/-- Modelled from the spec: the occupancy-grid view as the query code
sees it — spatial extent of level 0 (`base_aabb` split into a min and a
max corner), the shared per-level resolution, the level count, and the
per-level boolean occupancy lookup backed by the `occupied` array. -/
structure GridModel where
  baseMin : Q3
  baseMax : Q3
  resolution : I3
  levels : ℕ
  occupied : ℕ → I3 → Bool

/-- Modelled from the spec: min coordinate of level `l`'s AABB on one
axis — the base extent scaled about its center by `2^l`. -/
def lvlMin (a b : ℚ) (l : ℕ) : ℚ := (a + b) / 2 - (b - a) / 2 * 2 ^ l

/-- Modelled from the spec: max coordinate of level `l`'s AABB on one
axis — the base extent scaled about its center by `2^l`. -/
def lvlMax (a b : ℚ) (l : ℕ) : ℚ := (a + b) / 2 + (b - a) / 2 * 2 ^ l

/-- Min corner of level `l`'s AABB. -/
def GridModel.levelMin (g : GridModel) (l : ℕ) : Q3 :=
  ⟨lvlMin g.baseMin.x g.baseMax.x l, lvlMin g.baseMin.y g.baseMax.y l,
   lvlMin g.baseMin.z g.baseMax.z l⟩

/-- Max corner of level `l`'s AABB. -/
def GridModel.levelMax (g : GridModel) (l : ℕ) : Q3 :=
  ⟨lvlMax g.baseMin.x g.baseMax.x l, lvlMax g.baseMin.y g.baseMax.y l,
   lvlMax g.baseMin.z g.baseMax.z l⟩

/-- Modelled from the spec: integer voxel coordinate on one axis,
`floor((p - lo) / (hi - lo) * res)`. -/
def vIdx (lo hi : ℚ) (res : ℤ) (p : ℚ) : ℤ := ⌊(p - lo) / (hi - lo) * res⌋

/-- Modelled from the spec: the voxel coordinates of a point at level
`l`. -/
def GridModel.voxelIdx (g : GridModel) (l : ℕ) (p : Q3) : I3 :=
  ⟨vIdx (g.levelMin l).x (g.levelMax l).x g.resolution.x p.x,
   vIdx (g.levelMin l).y (g.levelMax l).y g.resolution.y p.y,
   vIdx (g.levelMin l).z (g.levelMax l).z g.resolution.z p.z⟩

/-- Modelled from the spec: the occupancy query, whose device
implementation is not among the provided source files.  The point is
mapped to voxel coordinates at level `l`; a coordinate outside
`[0, resolution)` on any axis is rejected, yielding "not occupied"
(`false`), never an error. -/
def GridModel.query (g : GridModel) (l : ℕ) (p : Q3) : Bool :=
  let i := g.voxelIdx l p
  if 0 ≤ i.x ∧ i.x < g.resolution.x ∧ 0 ≤ i.y ∧ i.y < g.resolution.y ∧
     0 ≤ i.z ∧ i.z < g.resolution.z then
    g.occupied l i
  else false

/-! Concrete instances used by the claim theorems and witnesses. -/

/-- A concrete rays buffer: one ray with origin (1,2,3) and direction
(1, +0, -0). -/
def raysEx : RaysSpec where
  origins := ⟨[1, 3], [F.fin 1, F.fin 2, F.fin 3]⟩
  dirs := ⟨[1, 3], [F.fin 1, F.fin 0, F.negZero]⟩

/-- The concrete test ray of the spec: origin (0,0,0), direction
(1,0,0), window [0,10], built through the packed-rays constructor. -/
def slabRay : SingleRaySpec :=
  SingleRaySpec.make
    (PackedRaysSpec.ofSpec
      ⟨⟨[1, 3], [F.fin 0, F.fin 0, F.fin 0]⟩, ⟨[1, 3], [F.fin 1, F.fin 0, F.fin 0]⟩⟩)
    0 (F.fin 0) (F.fin 10)

/-- The concrete test box of the spec: min (2,-1,-1), max (5,1,1). -/
def slabBox : AABBSpec :=
  AABBSpec.ofPtr [F.fin 2, F.fin (-1), F.fin (-1), F.fin 5, F.fin 1, F.fin 1]

/-- A concrete segments collection with 1-D edges and no optional
fields (in particular no `chunk_cnts`). -/
def segsFlatBare : RaySegmentsSpec where
  edges := some ⟨[3], [F.fin 0, F.fin 1, F.fin 2]⟩
  is_left := none
  is_right := none
  chunk_starts := none
  chunk_cnts := none
  ray_ids := none

/-- A concrete flattened segments collection with every field present:
3 edges split as chunks of 2 and 1 over 2 rays. -/
def segsFlatFull : RaySegmentsSpec where
  edges := some ⟨[3], [F.fin 0, F.fin 1, F.fin 2]⟩
  is_left := some ⟨[3], [true, true, false]⟩
  is_right := some ⟨[3], [false, true, true]⟩
  chunk_starts := some ⟨[2], [0, 2]⟩
  chunk_cnts := some ⟨[2], [2, 1]⟩
  ray_ids := some ⟨[3], [0, 0, 1]⟩

/-- A concrete batched segments collection: 2-D edges of shape
[2, 3]. -/
def segsBatched : RaySegmentsSpec where
  edges := some ⟨[2, 3], [F.fin 0, F.fin 1, F.fin 2, F.fin 0, F.fin 1, F.fin 2]⟩
  is_left := none
  is_right := none
  chunk_starts := none
  chunk_cnts := none
  ray_ids := none

/-- A concrete multiscale grid: 2 levels at resolution 2×3×4, with an
all-false occupancy array and base AABB [0,0,0,1,1,1]. -/
def gridEx : MultiScaleGridSpec where
  data := ⟨[2, 2, 3, 4], List.replicate 48 (F.fin 0)⟩
  occupied := ⟨[2, 2, 3, 4], List.replicate 48 false⟩
  base_aabb := ⟨[6], [F.fin 0, F.fin 0, F.fin 0, F.fin 1, F.fin 1, F.fin 1]⟩

/-- A concrete grid model: unit base box, resolution (2,2,2), one
level, everything occupied. -/
def gridModelEx : GridModel where
  baseMin := ⟨0, 0, 0⟩
  baseMax := ⟨1, 1, 1⟩
  resolution := ⟨2, 2, 2⟩
  levels := 1
  occupied := fun _ _ => true

/-! Helper lemmas. -/

/-- `wrap32` is the identity on sizes below `2^31`. -/
theorem wrap32_eq (n : ℕ) (h : n < 2 ^ 31) : wrap32 n = n := by
  have h1 : (0 : ℤ) ≤ (n : ℤ) + 2 ^ 31 := by positivity
  have h2 : (n : ℤ) + 2 ^ 31 < 2 ^ 32 := by
    have : (n : ℤ) < 2 ^ 31 := by exact_mod_cast h
    omega
  unfold wrap32
  rw [Int.emod_eq_of_lt h1 h2]
  omega

/-- A point left of the axis extent gets a negative voxel coordinate. -/
theorem vIdx_neg (lo hi : ℚ) (r : ℤ) (p : ℚ) (hlt : lo < hi) (hr : 0 < r)
    (hp : p < lo) : vIdx lo hi r p < 0 := by
  have hd : (0 : ℚ) < hi - lo := by linarith
  have hrq : (0 : ℚ) < (r : ℚ) := by exact_mod_cast hr
  have hratio : (p - lo) / (hi - lo) < 0 := div_neg_of_neg_of_pos (by linarith) hd
  have hx : (p - lo) / (hi - lo) * r < 0 := mul_neg_of_neg_of_pos hratio hrq
  exact Int.floor_lt.mpr (by push_cast; linarith)

/-- A point right of the axis extent gets a voxel coordinate at least
the resolution. -/
theorem vIdx_ge (lo hi : ℚ) (r : ℤ) (p : ℚ) (hlt : lo < hi) (hr : 0 < r)
    (hp : hi < p) : r ≤ vIdx lo hi r p := by
  have hd : (0 : ℚ) < hi - lo := by linarith
  have hrq : (0 : ℚ) < (r : ℚ) := by exact_mod_cast hr
  have hratio : (1 : ℚ) < (p - lo) / (hi - lo) := (one_lt_div hd).mpr (by linarith)
  have hx : (r : ℚ) ≤ (p - lo) / (hi - lo) * r := by nlinarith
  exact Int.le_floor.mpr hx

/-- A point strictly inside the axis extent gets a voxel coordinate in
`[0, r)`. -/
theorem vIdx_bounds (lo hi : ℚ) (r : ℤ) (p : ℚ) (hr : 0 < r)
    (h1 : lo < p) (h2 : p < hi) : 0 ≤ vIdx lo hi r p ∧ vIdx lo hi r p < r := by
  have hd : (0 : ℚ) < hi - lo := by linarith
  have hrq : (0 : ℚ) < (r : ℚ) := by exact_mod_cast hr
  have hratio0 : (0 : ℚ) ≤ (p - lo) / (hi - lo) := (div_pos (by linarith) hd).le
  have hratio1 : (p - lo) / (hi - lo) < 1 := (div_lt_one hd).mpr (by linarith)
  constructor
  · exact Int.le_floor.mpr (by exact_mod_cast mul_nonneg hratio0 hrq.le)
  · exact Int.floor_lt.mpr (by nlinarith)

/-- At level 0 the level AABB's min is the base min. -/
theorem lvlMin_zero (a b : ℚ) : lvlMin a b 0 = a := by unfold lvlMin; ring

/-- At level 0 the level AABB's max is the base max. -/
theorem lvlMax_zero (a b : ℚ) : lvlMax a b 0 = b := by unfold lvlMax; ring

/-- Every level's AABB is non-degenerate when the base one is. -/
theorem lvlMin_lt_lvlMax (a b : ℚ) (h : a < b) (l : ℕ) :
    lvlMin a b l < lvlMax a b l := by
  unfold lvlMin lvlMax
  have h2 : (0 : ℚ) < 2 ^ l := by positivity
  nlinarith

/-- Reciprocal of +0 is +∞. -/
theorem rcp_posZero : F.rcp (F.fin 0) = F.posInf := by simp [F.rcp]

/-- Reciprocal of -0 is -∞. -/
theorem rcp_negZero : F.rcp F.negZero = F.negInf := rfl

/-! Constructor-level evaluation lemmas for the float model, used to
evaluate the concrete test cases. -/

@[simp] theorem le_negInf_posInf : F.le F.negInf F.posInf = true := rfl

@[simp] theorem le_negInf_fin (b : ℚ) : F.le F.negInf (F.fin b) = true := rfl

@[simp] theorem le_fin_negInf (a : ℚ) : F.le (F.fin a) F.negInf = false := rfl

@[simp] theorem le_fin_posInf (a : ℚ) : F.le (F.fin a) F.posInf = true := rfl

@[simp] theorem le_posInf_fin (a : ℚ) : F.le F.posInf (F.fin a) = false := rfl

@[simp] theorem le_fin_fin (a b : ℚ) : F.le (F.fin a) (F.fin b) = decide (a ≤ b) := rfl

@[simp] theorem sub_fin_fin (a b : ℚ) : F.sub (F.fin a) (F.fin b) = F.fin (a - b) := rfl

@[simp] theorem mul_fin_fin (a b : ℚ) : F.mul (F.fin a) (F.fin b) = F.fin (a * b) := by
  simp [F.mul, F.isInf, F.toQ]

/-- A positive finite value times +∞ is +∞. -/
theorem mul_fin_posInf_pos (a : ℚ) (h : 0 < a) : F.mul (F.fin a) F.posInf = F.posInf := by
  simp [F.mul, F.isInf, F.sgn, h]

/-- A negative finite value times +∞ is -∞. -/
theorem mul_fin_posInf_neg (a : ℚ) (h : a < 0) : F.mul (F.fin a) F.posInf = F.negInf := by
  simp [F.mul, F.isInf, F.sgn, h, asymm h]

/-- Evaluation of the spec's concrete slab test case. -/
theorem slab_eval : ray_aabb_intersect slabRay slabBox = (F.fin 2, F.fin 5) := by
  have e1 : F.mul (F.fin (-1)) F.posInf = F.negInf := mul_fin_posInf_neg (-1) (by norm_num)
  have e2 : F.mul (F.fin 1) F.posInf = F.posInf := mul_fin_posInf_pos 1 (by norm_num)
  norm_num [ray_aabb_intersect, slabRay, slabBox, SingleRaySpec.make, PackedRaysSpec.ofSpec,
            AABBSpec.ofPtr, F.rcp, F.fmin, F.fmax, e1, e2]

/-! Claim theorems. -/

/-- Claim C1: for every rays buffer and index `i` with `0 ≤ i < N`, the
single-ray view has origin `(origins[3i], origins[3i+1], origins[3i+2])`,
dir `(dirs[3i], dirs[3i+1], dirs[3i+2])`, inverse direction the
componentwise reciprocal `1/dir[k]` (yielding +∞ or -∞ under IEEE-754
division when a direction component is ±0), and stores the caller's
`[tmin, tmax]` unchanged. -/
theorem c1_single_ray_view (rs : RaysSpec) (i : ℕ) (tmin tmax : F)
    (_hi : (i : ℤ) < (PackedRaysSpec.ofSpec rs).N) :
    SingleRaySpec.make (PackedRaysSpec.ofSpec rs) i tmin tmax =
      { origin := ⟨rs.origins.data.getD (3 * i) F.nan,
                   rs.origins.data.getD (3 * i + 1) F.nan,
                   rs.origins.data.getD (3 * i + 2) F.nan⟩
        dir := ⟨rs.dirs.data.getD (3 * i) F.nan,
                rs.dirs.data.getD (3 * i + 1) F.nan,
                rs.dirs.data.getD (3 * i + 2) F.nan⟩
        inv_dir := ⟨F.rcp (rs.dirs.data.getD (3 * i) F.nan),
                    F.rcp (rs.dirs.data.getD (3 * i + 1) F.nan),
                    F.rcp (rs.dirs.data.getD (3 * i + 2) F.nan)⟩
        tmin := tmin
        tmax := tmax } ∧
    (∀ q : ℚ, F.rcp (F.fin q) = if q = 0 then F.posInf else F.fin q⁻¹) ∧
    F.rcp F.negZero = F.negInf := by
  refine ⟨?_, fun q => rfl, rfl⟩
  simp [SingleRaySpec.make, PackedRaysSpec.ofSpec, Nat.mul_comm]

/-- Witness for C1 at a concrete one-ray buffer whose direction is
`(1, +0, -0)`: the inverse direction comes out as `(1, +∞, -∞)`. -/
theorem c1_single_ray_view_witness :
    (SingleRaySpec.make (PackedRaysSpec.ofSpec raysEx) 0 (F.fin 0) (F.fin 10)).inv_dir =
      ⟨F.fin 1, F.posInf, F.negInf⟩ := by
  have h := c1_single_ray_view raysEx 0 (F.fin 0) (F.fin 10)
    (by norm_num [PackedRaysSpec.ofSpec, raysEx, Tensor.size0, wrap32])
  rw [h.1]
  norm_num [raysEx, F.rcp]

/-- Claim C2: the slab intersection computes, per axis, the candidates
`(min[k]-origin[k])*inv_dir[k]` and `(max[k]-origin[k])*inv_dir[k]`,
orders each pair so entry ≤ exit, intersects across the axes and with
the input `[tmin, tmax]`, and is empty exactly when the combined
`t_enter > t_exit`; on the concrete ray origin (0,0,0), dir (1,0,0),
window [0,10] against the box min (2,-1,-1), max (5,1,1), the result is
the interval [2,5]. -/
theorem c2_slab_intersection :
    (∀ (ray : SingleRaySpec) (aabb : AABBSpec),
      ray_aabb_intersect ray aabb =
        (F.fmax (F.fmax (F.fmin (F.mul (F.sub aabb.min.x ray.origin.x) ray.inv_dir.x)
                                (F.mul (F.sub aabb.max.x ray.origin.x) ray.inv_dir.x))
                        (F.fmin (F.mul (F.sub aabb.min.y ray.origin.y) ray.inv_dir.y)
                                (F.mul (F.sub aabb.max.y ray.origin.y) ray.inv_dir.y)))
                (F.fmax (F.fmin (F.mul (F.sub aabb.min.z ray.origin.z) ray.inv_dir.z)
                                (F.mul (F.sub aabb.max.z ray.origin.z) ray.inv_dir.z))
                        ray.tmin),
         F.fmin (F.fmin (F.fmax (F.mul (F.sub aabb.min.x ray.origin.x) ray.inv_dir.x)
                                (F.mul (F.sub aabb.max.x ray.origin.x) ray.inv_dir.x))
                        (F.fmax (F.mul (F.sub aabb.min.y ray.origin.y) ray.inv_dir.y)
                                (F.mul (F.sub aabb.max.y ray.origin.y) ray.inv_dir.y)))
                (F.fmin (F.fmax (F.mul (F.sub aabb.min.z ray.origin.z) ray.inv_dir.z)
                                (F.mul (F.sub aabb.max.z ray.origin.z) ray.inv_dir.z))
                        ray.tmax)) ∧
      intersectIsEmpty ray aabb =
        !(F.le (ray_aabb_intersect ray aabb).1 (ray_aabb_intersect ray aabb).2)) ∧
    ray_aabb_intersect slabRay slabBox = (F.fin 2, F.fin 5) ∧
    intersectIsEmpty slabRay slabBox = false := by
  exact ⟨fun ray aabb => ⟨rfl, rfl⟩, slab_eval, by norm_num [intersectIsEmpty, slab_eval]⟩

/-- Claim C3: whenever the edges buffer is defined, the packed view's
`is_batched` flag is true exactly when the edges buffer has more than
one dimension. -/
theorem c3_is_batched_signal (s : RaySegmentsSpec) (e : Tensor F)
    (he : s.edges = some e) :
    (PackedRaySegmentsSpec.ofSpec s).is_batched = true ↔ 1 < e.dim := by
  simp [PackedRaySegmentsSpec.ofSpec, he]

/-- Witness for C3 at a concrete 2-D edges buffer of shape [2,3]. -/
theorem c3_is_batched_signal_witness :
    ((PackedRaySegmentsSpec.ofSpec segsBatched).is_batched = true ↔
      1 < Tensor.dim
        (⟨[2, 3], [F.fin 0, F.fin 1, F.fin 2, F.fin 0, F.fin 1, F.fin 2]⟩ : Tensor F)) :=
  c3_is_batched_signal segsBatched _ rfl

/-- Claim C4: constructing the packed view (later variant) tolerates
each of `is_left`, `is_right`, `chunk_starts`, `ray_ids` being absent —
an absent field becomes a null pointer, a present field is exposed
unchanged. -/
theorem c4_optional_fields (s : RaySegmentsSpec) :
    ((s.is_left = none → (PackedRaySegmentsSpec.ofSpec s).is_left = none) ∧
     (∀ t, s.is_left = some t → (PackedRaySegmentsSpec.ofSpec s).is_left = some t.data)) ∧
    ((s.is_right = none → (PackedRaySegmentsSpec.ofSpec s).is_right = none) ∧
     (∀ t, s.is_right = some t → (PackedRaySegmentsSpec.ofSpec s).is_right = some t.data)) ∧
    ((s.chunk_starts = none → (PackedRaySegmentsSpec.ofSpec s).chunk_starts = none) ∧
     (∀ t, s.chunk_starts = some t →
        (PackedRaySegmentsSpec.ofSpec s).chunk_starts = some t.data)) ∧
    ((s.ray_ids = none → (PackedRaySegmentsSpec.ofSpec s).ray_ids = none) ∧
     (∀ t, s.ray_ids = some t → (PackedRaySegmentsSpec.ofSpec s).ray_ids = some t.data)) := by
  refine ⟨⟨?_, ?_⟩, ⟨?_, ?_⟩, ⟨?_, ?_⟩, ⟨?_, ?_⟩⟩ <;>
    first
      | (intro h; simp [PackedRaySegmentsSpec.ofSpec, h])
      | (intro t h; simp [PackedRaySegmentsSpec.ofSpec, h])

/-- Witness for C4: with all four optional fields absent the view holds
null pointers; with all present, `ray_ids` is exposed unchanged. -/
theorem c4_optional_fields_witness :
    (PackedRaySegmentsSpec.ofSpec segsFlatBare).is_left = none ∧
    (PackedRaySegmentsSpec.ofSpec segsFlatBare).is_right = none ∧
    (PackedRaySegmentsSpec.ofSpec segsFlatBare).chunk_starts = none ∧
    (PackedRaySegmentsSpec.ofSpec segsFlatBare).ray_ids = none ∧
    (PackedRaySegmentsSpec.ofSpec segsFlatFull).ray_ids = some [0, 0, 1] :=
  ⟨(c4_optional_fields segsFlatBare).1.1 rfl,
   (c4_optional_fields segsFlatBare).2.1.1 rfl,
   (c4_optional_fields segsFlatBare).2.2.1.1 rfl,
   (c4_optional_fields segsFlatBare).2.2.2.1 rfl,
   (c4_optional_fields segsFlatFull).2.2.2.2 ⟨[3], [0, 0, 1]⟩ rfl⟩

/-- Claim C5 counterexample: in the later (superset) variant — the one
the spec adopts — constructing the packed view of a flattened
collection whose `chunk_cnts` is absent does not fail: it yields a
well-defined view with a null `chunk_cnts` pointer and `n_rays = 0`. -/
theorem c5_counterexample :
    (PackedRaySegmentsSpec.ofSpec segsFlatBare).edges = some [F.fin 0, F.fin 1, F.fin 2] ∧
    (PackedRaySegmentsSpec.ofSpec segsFlatBare).chunk_cnts = none ∧
    (PackedRaySegmentsSpec.ofSpec segsFlatBare).n_rays = 0 := by
  refine ⟨rfl, rfl, ?_⟩
  norm_num [PackedRaySegmentsSpec.ofSpec, segsFlatBare]

/-- Claim C5 (amended): only the earlier variant fails fast at
construction when `chunk_cnts` is absent (and it fails exactly then);
the later variant constructs the view regardless.  In both variants,
when `chunk_cnts` is present (as a 1-D tensor of realistic size), the
view's `n_rays` equals the length of `chunk_cnts`. -/
theorem c5_chunk_cnts_required (s : RaySegmentsSpec) :
    (PackedRaySegmentsSpecOld.ofSpec s = none ↔ s.chunk_cnts = none) ∧
    (∀ c : Tensor ℤ, s.chunk_cnts = some c → c.shape = [c.data.length] →
      c.data.length < 2 ^ 31 →
      (PackedRaySegmentsSpec.ofSpec s).n_rays = c.data.length ∧
      ∀ old, PackedRaySegmentsSpecOld.ofSpec s = some old →
        old.n_rays = c.data.length) := by
  constructor
  · cases hc : s.chunk_cnts with
    | none => simp [PackedRaySegmentsSpecOld.ofSpec, hc]
    | some c => simp [PackedRaySegmentsSpecOld.ofSpec, hc]
  · intro c hc hsh hlen
    have hs0 : c.size0 = c.data.length := by simp [Tensor.size0, hsh]
    constructor
    · simp [PackedRaySegmentsSpec.ofSpec, hc, hs0, wrap32_eq _ hlen]
    · intro old hold
      simp [PackedRaySegmentsSpecOld.ofSpec, hc] at hold
      rw [← hold]
      simp [hs0]

/-- Witness for the amended C5: the earlier variant rejects the
chunk-count-less collection, and on a collection with chunk counts
[2, 1] both variants report `n_rays = 2`. -/
theorem c5_chunk_cnts_required_witness :
    PackedRaySegmentsSpecOld.ofSpec segsFlatBare = none ∧
    (PackedRaySegmentsSpec.ofSpec segsFlatFull).n_rays = 2 := by
  constructor
  · exact (c5_chunk_cnts_required segsFlatBare).1.mpr rfl
  · exact ((c5_chunk_cnts_required segsFlatFull).2 ⟨[2], [2, 1]⟩ rfl rfl
      (by norm_num)).1

/-- Claim C6: for a level index `0 ≤ l < levels`, a point outside the
level's AABB queries as "not occupied" (never an error), and a point
strictly inside the base AABB queried at level 0 maps to voxel
coordinates `floor((p-min)/(max-min)*res)` lying in `[0, res)` on every
axis. -/
theorem c6_occupancy_query (g : GridModel)
    (hrx : 0 < g.resolution.x) (hry : 0 < g.resolution.y) (hrz : 0 < g.resolution.z)
    (hbx : g.baseMin.x < g.baseMax.x) (hby : g.baseMin.y < g.baseMax.y)
    (hbz : g.baseMin.z < g.baseMax.z) (_hlv : 0 < g.levels) :
    (∀ (l : ℕ) (p : Q3), l < g.levels →
      (p.x < (g.levelMin l).x ∨ (g.levelMax l).x < p.x ∨
       p.y < (g.levelMin l).y ∨ (g.levelMax l).y < p.y ∨
       p.z < (g.levelMin l).z ∨ (g.levelMax l).z < p.z) →
      g.query l p = false) ∧
    (∀ p : Q3, g.baseMin.x < p.x → p.x < g.baseMax.x →
      g.baseMin.y < p.y → p.y < g.baseMax.y →
      g.baseMin.z < p.z → p.z < g.baseMax.z →
      0 ≤ (g.voxelIdx 0 p).x ∧ (g.voxelIdx 0 p).x < g.resolution.x ∧
      0 ≤ (g.voxelIdx 0 p).y ∧ (g.voxelIdx 0 p).y < g.resolution.y ∧
      0 ≤ (g.voxelIdx 0 p).z ∧ (g.voxelIdx 0 p).z < g.resolution.z) := by
  have hmx : ∀ l : ℕ, (g.levelMin l).x < (g.levelMax l).x :=
    fun l => lvlMin_lt_lvlMax _ _ hbx l
  have hmy : ∀ l : ℕ, (g.levelMin l).y < (g.levelMax l).y :=
    fun l => lvlMin_lt_lvlMax _ _ hby l
  have hmz : ∀ l : ℕ, (g.levelMin l).z < (g.levelMax l).z :=
    fun l => lvlMin_lt_lvlMax _ _ hbz l
  constructor
  · intro l p _hl hout
    simp only [GridModel.query]
    rw [if_neg]
    intro hC
    rcases hout with h | h | h | h | h | h
    · have hx := vIdx_neg _ _ _ _ (hmx l) hrx h
      exact absurd hC.1 (by simp [GridModel.voxelIdx] at hx ⊢; omega)
    · have hx := vIdx_ge _ _ _ _ (hmx l) hrx h
      exact absurd hC.2.1 (by simp [GridModel.voxelIdx] at hx ⊢; omega)
    · have hx := vIdx_neg _ _ _ _ (hmy l) hry h
      exact absurd hC.2.2.1 (by simp [GridModel.voxelIdx] at hx ⊢; omega)
    · have hx := vIdx_ge _ _ _ _ (hmy l) hry h
      exact absurd hC.2.2.2.1 (by simp [GridModel.voxelIdx] at hx ⊢; omega)
    · have hx := vIdx_neg _ _ _ _ (hmz l) hrz h
      exact absurd hC.2.2.2.2.1 (by simp [GridModel.voxelIdx] at hx ⊢; omega)
    · have hx := vIdx_ge _ _ _ _ (hmz l) hrz h
      exact absurd hC.2.2.2.2.2 (by simp [GridModel.voxelIdx] at hx ⊢; omega)
  · intro p h1x h2x h1y h2y h1z h2z
    have ex : (g.voxelIdx 0 p).x = vIdx g.baseMin.x g.baseMax.x g.resolution.x p.x := by
      simp [GridModel.voxelIdx, GridModel.levelMin, GridModel.levelMax,
            lvlMin_zero, lvlMax_zero]
    have ey : (g.voxelIdx 0 p).y = vIdx g.baseMin.y g.baseMax.y g.resolution.y p.y := by
      simp [GridModel.voxelIdx, GridModel.levelMin, GridModel.levelMax,
            lvlMin_zero, lvlMax_zero]
    have ez : (g.voxelIdx 0 p).z = vIdx g.baseMin.z g.baseMax.z g.resolution.z p.z := by
      simp [GridModel.voxelIdx, GridModel.levelMin, GridModel.levelMax,
            lvlMin_zero, lvlMax_zero]
    have bx := vIdx_bounds _ _ _ _ hrx h1x h2x
    have by2 := vIdx_bounds _ _ _ _ hry h1y h2y
    have bz := vIdx_bounds _ _ _ _ hrz h1z h2z
    rw [ex, ey, ez]
    exact ⟨bx.1, bx.2, by2.1, by2.2, bz.1, bz.2⟩

/-- Witness for C6 at the concrete unit grid: the point (2, 1/2, 1/2)
lies outside level 0 and queries as not occupied; the interior point
(1/2, 3/4, 1/4) maps to voxel coordinates inside `[0, 2)` on every
axis. -/
theorem c6_occupancy_query_witness :
    gridModelEx.query 0 ⟨2, 1/2, 1/2⟩ = false ∧
    (0 ≤ (gridModelEx.voxelIdx 0 ⟨1/2, 3/4, 1/4⟩).x ∧
     (gridModelEx.voxelIdx 0 ⟨1/2, 3/4, 1/4⟩).x < gridModelEx.resolution.x ∧
     0 ≤ (gridModelEx.voxelIdx 0 ⟨1/2, 3/4, 1/4⟩).y ∧
     (gridModelEx.voxelIdx 0 ⟨1/2, 3/4, 1/4⟩).y < gridModelEx.resolution.y ∧
     0 ≤ (gridModelEx.voxelIdx 0 ⟨1/2, 3/4, 1/4⟩).z ∧
     (gridModelEx.voxelIdx 0 ⟨1/2, 3/4, 1/4⟩).z < gridModelEx.resolution.z) := by
  have h := c6_occupancy_query gridModelEx
    (by norm_num [gridModelEx]) (by norm_num [gridModelEx]) (by norm_num [gridModelEx])
    (by norm_num [gridModelEx]) (by norm_num [gridModelEx]) (by norm_num [gridModelEx])
    (by norm_num [gridModelEx])
  refine ⟨h.1 0 ⟨2, 1/2, 1/2⟩ (by norm_num [gridModelEx]) ?_,
          h.2 ⟨1/2, 3/4, 1/4⟩ (by norm_num [gridModelEx]) (by norm_num [gridModelEx])
            (by norm_num [gridModelEx]) (by norm_num [gridModelEx])
            (by norm_num [gridModelEx]) (by norm_num [gridModelEx])⟩
  exact Or.inr (Or.inl (by norm_num [gridModelEx, GridModel.levelMax, lvlMax]))

/-- Claim C7: when `occupied` and `data` share the shape
`[levels, nx, ny, nz]`, the packed grid view's `levels` is `data`'s
first dimension and its `resolution` is the remaining three, so the
same bounds govern both arrays; `base_aabb` is read as a 6-tuple of min
corner then max corner. -/
theorem c7_grid_shape (s : MultiScaleGridSpec) (L nx ny nz : ℕ)
    (hd : s.data.shape = [L, nx, ny, nz])
    (ho : s.occupied.shape = s.data.shape)
    (hL : L < 2 ^ 31) (hx : nx < 2 ^ 31) (hy : ny < 2 ^ 31) (hz : nz < 2 ^ 31) :
    (PackedMultiScaleGridSpec.ofSpec s).levels = L ∧
    (PackedMultiScaleGridSpec.ofSpec s).resolution = ⟨nx, ny, nz⟩ ∧
    s.occupied.shape = [L, nx, ny, nz] ∧
    (∀ a0 a1 a2 a3 a4 a5 : F, s.base_aabb.data = [a0, a1, a2, a3, a4, a5] →
      AABBSpec.ofPtr (PackedMultiScaleGridSpec.ofSpec s).base_aabb =
        ⟨⟨a0, a1, a2⟩, ⟨a3, a4, a5⟩⟩) := by
  refine ⟨?_, ?_, ho.trans hd, ?_⟩
  · show wrap32 (s.data.size 0) = (L : ℤ)
    rw [show s.data.size 0 = L by simp [Tensor.size, hd], wrap32_eq _ hL]
  · show (⟨wrap32 (s.data.size 1), wrap32 (s.data.size 2), wrap32 (s.data.size 3)⟩ : I3) =
      ⟨nx, ny, nz⟩
    rw [show s.data.size 1 = nx by simp [Tensor.size, hd],
        show s.data.size 2 = ny by simp [Tensor.size, hd],
        show s.data.size 3 = nz by simp [Tensor.size, hd],
        wrap32_eq _ hx, wrap32_eq _ hy, wrap32_eq _ hz]
  · intro a0 a1 a2 a3 a4 a5 h6
    show AABBSpec.ofPtr s.base_aabb.data = _
    rw [h6]
    rfl

/-- Witness for C7 at the concrete 2-level 2×3×4 grid. -/
theorem c7_grid_shape_witness :
    (PackedMultiScaleGridSpec.ofSpec gridEx).levels = 2 ∧
    (PackedMultiScaleGridSpec.ofSpec gridEx).resolution = ⟨2, 3, 4⟩ ∧
    AABBSpec.ofPtr (PackedMultiScaleGridSpec.ofSpec gridEx).base_aabb =
      ⟨⟨F.fin 0, F.fin 0, F.fin 0⟩, ⟨F.fin 1, F.fin 1, F.fin 1⟩⟩ := by
  have h := c7_grid_shape gridEx 2 2 3 4 rfl rfl
    (by norm_num) (by norm_num) (by norm_num) (by norm_num)
  exact ⟨h.1, h.2.1, h.2.2.2 (F.fin 0) (F.fin 0) (F.fin 0) (F.fin 1) (F.fin 1) (F.fin 1) rfl⟩

/-- Claim C8: on the earlier variant's domain (edges defined and 1-D,
chunk counts defined), the later (superset) variant's view exposes the
same `edges`, `is_left`, `is_right`, `chunk_starts`, `chunk_cnts`, and
`ray_ids` pointers and the same `n_edges` and `n_rays` values as the
earlier variant's. -/
theorem c8_variant_refinement (s : RaySegmentsSpec) (e : Tensor F) (c : Tensor ℤ)
    (he : s.edges = some e) (_hdim : e.dim = 1) (hc : s.chunk_cnts = some c)
    (hsize : c.size0 < 2 ^ 31) :
    ∃ old : PackedRaySegmentsSpecOld,
      PackedRaySegmentsSpecOld.ofSpec s = some old ∧
      old.edges = (PackedRaySegmentsSpec.ofSpec s).edges ∧
      old.is_left = (PackedRaySegmentsSpec.ofSpec s).is_left ∧
      old.is_right = (PackedRaySegmentsSpec.ofSpec s).is_right ∧
      old.chunk_starts = (PackedRaySegmentsSpec.ofSpec s).chunk_starts ∧
      some old.chunk_cnts = (PackedRaySegmentsSpec.ofSpec s).chunk_cnts ∧
      old.ray_ids = (PackedRaySegmentsSpec.ofSpec s).ray_ids ∧
      old.n_edges = (PackedRaySegmentsSpec.ofSpec s).n_edges ∧
      old.n_rays = (PackedRaySegmentsSpec.ofSpec s).n_rays := by
  refine ⟨⟨s.edges.map Tensor.data, s.is_left.map Tensor.data, s.is_right.map Tensor.data,
           s.chunk_starts.map Tensor.data, c.data, s.ray_ids.map Tensor.data,
           (e.numel : ℤ), (c.size0 : ℤ)⟩, ?_, ?_, ?_, ?_, ?_, ?_, ?_, ?_, ?_⟩
  · simp [PackedRaySegmentsSpecOld.ofSpec, hc, he]
  · simp [PackedRaySegmentsSpec.ofSpec]
  · simp [PackedRaySegmentsSpec.ofSpec]
  · simp [PackedRaySegmentsSpec.ofSpec]
  · simp [PackedRaySegmentsSpec.ofSpec]
  · simp [PackedRaySegmentsSpec.ofSpec, hc]
  · simp [PackedRaySegmentsSpec.ofSpec]
  · simp [PackedRaySegmentsSpec.ofSpec, he]
  · simp [PackedRaySegmentsSpec.ofSpec, hc, wrap32_eq _ hsize]

/-- Witness for C8 at the concrete fully-populated flattened
collection. -/
theorem c8_variant_refinement_witness :
    ∃ old : PackedRaySegmentsSpecOld,
      PackedRaySegmentsSpecOld.ofSpec segsFlatFull = some old ∧
      old.n_rays = (PackedRaySegmentsSpec.ofSpec segsFlatFull).n_rays := by
  obtain ⟨old, h1, _, _, _, _, _, _, _, h9⟩ :=
    c8_variant_refinement segsFlatFull ⟨[3], [F.fin 0, F.fin 1, F.fin 2]⟩ ⟨[2], [2, 1]⟩
      rfl rfl rfl (by norm_num [Tensor.size0])
  exact ⟨old, h1, h9⟩

/-- Claim C9: for a batched collection whose edges buffer has shape
`[n_rays, n_edges_per_ray]`, the view's `n_edges` equals the product of
the two, with `n_edges_per_ray` read from the last dimension. -/
theorem c9_batched_edge_count (s : RaySegmentsSpec) (e : Tensor F) (R P : ℕ)
    (he : s.edges = some e) (hsh : e.shape = [R, P]) (hP : P < 2 ^ 31) :
    (PackedRaySegmentsSpec.ofSpec s).n_edges = (R : ℤ) * P ∧
    (PackedRaySegmentsSpec.ofSpec s).n_edges_per_ray = P ∧
    (PackedRaySegmentsSpec.ofSpec s).n_edges =
      (R : ℤ) * (PackedRaySegmentsSpec.ofSpec s).n_edges_per_ray := by
  have h1 : (PackedRaySegmentsSpec.ofSpec s).n_edges = (R : ℤ) * P := by
    simp [PackedRaySegmentsSpec.ofSpec, he, Tensor.numel, hsh]
  have h2 : (PackedRaySegmentsSpec.ofSpec s).n_edges_per_ray = P := by
    simp [PackedRaySegmentsSpec.ofSpec, he, Tensor.sizeLast, hsh, wrap32_eq _ hP]
  exact ⟨h1, h2, by rw [h1, h2]⟩

/-- Witness for C9 at the concrete batched collection of shape
[2, 3]: 6 total edges, 3 per ray. -/
theorem c9_batched_edge_count_witness :
    (PackedRaySegmentsSpec.ofSpec segsBatched).n_edges = 6 ∧
    (PackedRaySegmentsSpec.ofSpec segsBatched).n_edges_per_ray = 3 := by
  have h := c9_batched_edge_count segsBatched
    ⟨[2, 3], [F.fin 0, F.fin 1, F.fin 2, F.fin 0, F.fin 1, F.fin 2]⟩ 2 3
    rfl rfl (by norm_num)
  exact ⟨by rw [h.1]; norm_num, h.2.1⟩

/-- Claim C10: for a defined 1-D edges buffer the later variant sets
`is_batched = false` but still sets `n_edges_per_ray` from the last
dimension, which then equals the total `n_edges`; with `chunk_cnts`
additionally absent, the view is still constructed, with `n_rays = 0`
and a null `chunk_cnts`. -/
theorem c10_flattened_defaults (s : RaySegmentsSpec) (e : Tensor F) (n : ℕ)
    (he : s.edges = some e) (hsh : e.shape = [n]) (hn : n < 2 ^ 31) :
    (PackedRaySegmentsSpec.ofSpec s).is_batched = false ∧
    (PackedRaySegmentsSpec.ofSpec s).n_edges_per_ray = n ∧
    (PackedRaySegmentsSpec.ofSpec s).n_edges = n ∧
    (PackedRaySegmentsSpec.ofSpec s).n_edges_per_ray =
      (PackedRaySegmentsSpec.ofSpec s).n_edges ∧
    (s.chunk_cnts = none →
      (PackedRaySegmentsSpec.ofSpec s).n_rays = 0 ∧
      (PackedRaySegmentsSpec.ofSpec s).chunk_cnts = none) := by
  have h1 : (PackedRaySegmentsSpec.ofSpec s).is_batched = false := by
    simp [PackedRaySegmentsSpec.ofSpec, he, Tensor.dim, hsh]
  have h2 : (PackedRaySegmentsSpec.ofSpec s).n_edges_per_ray = n := by
    simp [PackedRaySegmentsSpec.ofSpec, he, Tensor.sizeLast, hsh, wrap32_eq _ hn]
  have h3 : (PackedRaySegmentsSpec.ofSpec s).n_edges = n := by
    simp [PackedRaySegmentsSpec.ofSpec, he, Tensor.numel, hsh]
  refine ⟨h1, h2, h3, by rw [h2, h3], ?_⟩
  intro hc
  constructor
  · simp [PackedRaySegmentsSpec.ofSpec, hc]
  · simp [PackedRaySegmentsSpec.ofSpec, hc]

/-- Witness for C10 at the concrete bare flattened collection of three
edges. -/
theorem c10_flattened_defaults_witness :
    (PackedRaySegmentsSpec.ofSpec segsFlatBare).is_batched = false ∧
    (PackedRaySegmentsSpec.ofSpec segsFlatBare).n_edges_per_ray = 3 ∧
    (PackedRaySegmentsSpec.ofSpec segsFlatBare).n_edges = 3 ∧
    (PackedRaySegmentsSpec.ofSpec segsFlatBare).n_rays = 0 ∧
    (PackedRaySegmentsSpec.ofSpec segsFlatBare).chunk_cnts = none := by
  have h := c10_flattened_defaults segsFlatBare ⟨[3], [F.fin 0, F.fin 1, F.fin 2]⟩ 3
    rfl rfl (by norm_num)
  exact ⟨h.1, h.2.1, h.2.2.1, (h.2.2.2.2 rfl).1, (h.2.2.2.2 rfl).2⟩

end NerfAcc
